import Mathlib

/-!
Shallow embedding of `src/shelly/ha_availability.js` (bradgclark/chome):
a Shelly-relay script that polls a Home Assistant URL, classifies the hub
as reachable, applies a global input mode (`"detached"` when up, `"follow"`
when down) to the configured relay channels, ensures the output is ON in
detached mode, schedules the next probe with capped exponential backoff
plus jitter, and debounces Wi-Fi connectivity events into one recheck.

Asynchronous RPC calls are embedded as pure functions over an environment
`Env` describing what each RPC callback would receive; the side effects of
a cycle are recorded as a trace (`List Op`) of the RPC operations issued.
Timers are modelled by their delays; the random jitter is an explicit
parameter.
-/

namespace HaAvailability

/-! ## USER SETTINGS block (source lines 30-36) -/

def RELAY_IDS : List Nat := [0]

def CHECK_MS : Nat := 30000

def TIMEOUT_MS : Nat := 4000

def UP_MODE : String := "detached"

def DOWN_MODE : String := "follow"

/-! ## Backoff configuration (source lines 43-45) -/

def MIN_MS : Nat := CHECK_MS

def MAX_MS : Nat := 180000

/-- Debounce delay of the Wi-Fi event handler (`Timer.set(3000, ...)`,
source line 174). -/
def WIFI_DEBOUNCE_MS : Nat := 3000

/-- Fixed delay before the single probe retry (`Timer.set(300, ...)`,
source line 112). -/
def RETRY_DELAY_MS : Nat := 300

/-- Global mutable state of the script: `lastApplied` (line 38),
`backoffMs` (line 45) and the two timer handles (lines 39-40), each
modelled as the armed delay when pending. -/
structure CtrlState where
  lastApplied : Option String
  backoffMs : Nat
  nextTimer : Option Nat
  wifiTimer : Option Nat
deriving Repr, DecidableEq

/-- State at script start: `lastApplied = null`, `backoffMs = MIN_MS`,
no timers armed. -/
def initState : CtrlState :=
  { lastApplied := none, backoffMs := MIN_MS, nextTimer := none, wifiTimer := none }

/-- What the device RPCs would answer during one apply cycle.
`inMode id` is what `getInMode`'s callback receives (`none` models both a
`Switch.GetConfig` error and a missing/falsy `in_mode` field, matching
`cb(res.in_mode || null)`); `setOk id` is whether `Switch.SetConfig`
succeeds; `output id` is what `getOutput`'s callback receives (`none`
models a `Switch.GetStatus` error, `some b` the coerced `!!res.output`). -/
structure Env where
  inMode : Nat → Option String
  setOk : Nat → Bool
  output : Nat → Option Bool

/-- One RPC operation issued to the device, recorded in traces. -/
inductive Op where
  | getConfig (id : Nat)
  | setConfig (id : Nat) (mode : String)
  | getStatus (id : Nat)
  | switchSet (id : Nat) (turnOn : Bool)
deriving Repr, DecidableEq

/-- The channel an operation touches. -/
def Op.chan : Op → Nat
  | .getConfig id => id
  | .setConfig id _ => id
  | .getStatus id => id
  | .switchSet id _ => id

/-- `ensureOnIfDetached` (source lines 84-91): bail out unless the desired
mode is the literal `"detached"`; otherwise read the output
(`Switch.GetStatus`), abandon on read error, and issue `Switch.Set on:true`
exactly when the output reads off. -/
def ensureOnIfDetached (env : Env) (id : Nat) (desiredMode : String) : List Op :=
  if desiredMode ≠ "detached" then []
  else
    Op.getStatus id ::
      match env.output id with
      | none => []
      | some out => if !out then [Op.switchSet id true] else []

/-- The per-channel body of `applyMode`'s non-skip branch (source lines
130-143): read the input mode (`getInMode`); on read error abandon the
channel; if the current mode differs, write the desired mode (`setInMode`)
and — in the write's callback, regardless of its success — run
`ensureOnIfDetached`; if it already matches, run `ensureOnIfDetached`
directly. -/
def channelApply (env : Env) (id : Nat) (desired : String) : List Op :=
  Op.getConfig id ::
    match env.inMode id with
    | none => []
    | some curr =>
      if curr ≠ desired then
        Op.setConfig id desired :: ensureOnIfDetached env id desired
      else
        ensureOnIfDetached env id desired

/-- The desired global mode derived from a probe outcome
(`const desired = haUp ? UP_MODE : DOWN_MODE`, source line 122). -/
def desiredModeOf (upMode downMode : String) (haUp : Bool) : String :=
  if haUp then upMode else downMode

/-- `applyMode` (source lines 121-147), parametrised by the configured
mode constants and channel list. If the desired mode equals `lastApplied`,
skip the per-channel mode read/write and only run `ensureOnIfDetached` for
every channel; otherwise run `channelApply` for every channel and set
`lastApplied := desired` (the source sets it right after issuing the
per-channel calls). Returns the new state and the trace of issued RPCs. -/
def applyModeWith (upMode downMode : String) (rids : List Nat) (st : CtrlState)
    (env : Env) (haUp : Bool) : CtrlState × List Op :=
  let desired := desiredModeOf upMode downMode haUp
  if st.lastApplied = some desired then
    (st, (rids.map (fun id => ensureOnIfDetached env id desired)).flatten)
  else
    ({ st with lastApplied := some desired },
     (rids.map (fun id => channelApply env id desired)).flatten)

/-- `applyMode` with the script's configured constants. -/
def applyMode (st : CtrlState) (env : Env) (haUp : Bool) : CtrlState × List Op :=
  applyModeWith UP_MODE DOWN_MODE RELAY_IDS st env haUp

/-! ## Reachability probe (`checkHA`, source lines 94-118) -/

/-- The `res` argument an `HTTP.GET` callback receives: `code` is `some c`
when `res.code` is present and numeric (HTTP status codes are
non-negative), `none` when missing or non-numeric. -/
structure HttpRes where
  code : Option Nat
deriving Repr, DecidableEq

/-- The classification at source lines 100-101:
`code = res && typeof res.code === "number" ? res.code : null` and
`reachable = (!ec && code !== null && code < 500)`. `ec` is the RPC error
code, falsy (0) on success. -/
def isReachable (res : Option HttpRes) (ec : Int) : Bool :=
  let code : Option Nat :=
    match res with
    | none => none
    | some r => r.code
  (ec == 0) &&
    match code with
    | none => false
    | some c => decide (c < 500)

/-- Outcome of one probe cycle: the boolean reported to the callback, the
attempt counter at which the cycle ended, and the retry delays scheduled
along the way. -/
structure ProbeOut where
  reachable : Bool
  attemptsUsed : Nat
  retryDelays : List Nat
deriving Repr, DecidableEq

/-- `checkHA` (source lines 94-118): issue `HTTP.GET` attempt number
`attempt` (its callback data given by `out attempt`); report `true` when
reachable; otherwise retry once after `RETRY_DELAY_MS` while
`attempt < 2`, else report `false`. -/
def checkHA (out : Nat → Option HttpRes × Int) (attempt : Nat) : ProbeOut :=
  let r := out attempt
  if isReachable r.1 r.2 then
    { reachable := true, attemptsUsed := attempt, retryDelays := [] }
  else if h : attempt < 2 then
    let r2 := checkHA out (attempt + 1)
    { reachable := r2.reachable, attemptsUsed := r2.attemptsUsed,
      retryDelays := RETRY_DELAY_MS :: r2.retryDelays }
  else
    { reachable := false, attemptsUsed := attempt, retryDelays := [] }
termination_by 2 - attempt
decreasing_by omega

/-- A probe as started by the call sites (`checkHA(cb)`, with
`attempt = attempt || 1` defaulting to 1). -/
def probeHA (out : Nat → Option HttpRes × Int) : ProbeOut :=
  checkHA out 1

/-! ## Scheduler (`scheduleNext`, source lines 150-160) -/

/-- The stored-backoff update
`backoffMs = haUp ? MIN_MS : Math.min(backoffMs * 2, MAX_MS)`
(source line 151). -/
def nextBackoff (backoff : Nat) (haUp : Bool) : Nat :=
  if haUp then MIN_MS else min (backoff * 2) MAX_MS

/-- `scheduleNext` (source lines 150-160): update the stored backoff,
clear any pending next-probe timer, and arm a new one at
`backoffMs + jitter`, where `jitter = Math.floor(Math.random() * 3000)`
is passed in explicitly (it ranges over [0, 3000)). Returns the new state
and the armed wait. -/
def scheduleNext (st : CtrlState) (haUp : Bool) (jitter : Nat) : CtrlState × Nat :=
  let b := nextBackoff st.backoffMs haUp
  ({ st with backoffMs := b, nextTimer := some (b + jitter) }, b + jitter)

/-- `applyModeAndSchedule` (source lines 162-165): apply then schedule.
Returns the new state, the apply trace, and the armed wait. -/
def applyModeAndSchedule (env : Env) (st : CtrlState) (haUp : Bool)
    (jitter : Nat) : CtrlState × List Op × Nat :=
  let a := applyMode st env haUp
  let s := scheduleNext a.1 haUp jitter
  (s.1, a.2, s.2)

/-- The controller loop driven by a sequence of probe outcomes, each
paired with the jitter drawn for its `scheduleNext`. -/
def runOutcomes (env : Env) (st : CtrlState) : List (Bool × Nat) → CtrlState
  | [] => st
  | (o, j) :: rest => runOutcomes env (applyModeAndSchedule env st o j).1 rest

/-- The trajectory of stored backoff values: element `k` is the stored
delay after the `(k+1)`-st outcome has been fed to `scheduleNext`. -/
def backoffTraj (b : Nat) : List Bool → List Nat
  | [] => []
  | o :: os =>
    let b2 := nextBackoff b o
    b2 :: backoffTraj b2 os

/-! ## Wi-Fi event debounce (source lines 171-180) -/

/-- Fire times of the debounce timer for a time-ordered list of Wi-Fi
connectivity events. Each event cancels the pending debounce timer and
arms a new one `d` ms out (source lines 173-174); the timer armed at
time `t` fires at `t + d` unless another event arrives strictly before
that. -/
def debounceFireTimes (d : Nat) : List Nat → List Nat
  | [] => []
  | t :: rest =>
    (match rest with
     | [] => [t + d]
     | t2 :: _ => if t2 < t + d then [] else [t + d]) ++ debounceFireTimes d rest

/-- The debounce timer's callback (source lines 175-178): reset the
backoff to `MIN_MS`, clear any pending next-probe timer, and run a fresh
probe→apply→schedule cycle (`checkHA(applyModeAndSchedule)`) whose probe
outcome is `haUp`. -/
def debounceFireAction (env : Env) (st : CtrlState) (haUp : Bool)
    (jitter : Nat) : CtrlState × List Op × Nat :=
  applyModeAndSchedule env
    { st with backoffMs := MIN_MS, nextTimer := none } haUp jitter

/-- Time-ordered event list whose consecutive gaps are all strictly
inside the debounce window `d` (a burst that keeps restarting the
timer). -/
def withinWindow (d : Nat) : List Nat → Bool
  | [] => true
  | [_] => true
  | t :: t2 :: rest => decide (t2 < t + d) && withinWindow d (t2 :: rest)

/-! ## Helper lemmas -/

theorem mem_ensureOnIfDetached {env : Env} {id : Nat} {m : String} {o : Op}
    (h : o ∈ ensureOnIfDetached env id m) :
    o = Op.getStatus id ∨ o = Op.switchSet id true := by
  unfold ensureOnIfDetached at h
  split at h
  · simp at h
  · rcases List.mem_cons.mp h with h | h
    · exact Or.inl h
    · rcases henv : env.output id with _ | out <;> rw [henv] at h
      · simp at h
      · rcases out <;> simp_all

theorem mem_channelApply {env : Env} {id : Nat} {d : String} {o : Op}
    (h : o ∈ channelApply env id d) :
    o = Op.getConfig id ∨ o = Op.setConfig id d ∨
      o ∈ ensureOnIfDetached env id d := by
  rcases henv : env.inMode id with _ | curr
  · simp [channelApply, henv] at h
    exact Or.inl h
  · simp only [channelApply, henv, List.mem_cons] at h
    rcases h with h | h
    · exact Or.inl h
    · split at h
      · rcases List.mem_cons.mp h with h | h
        · exact Or.inr (Or.inl h)
        · exact Or.inr (Or.inr h)
      · exact Or.inr (Or.inr h)

theorem chan_of_mem_channelApply {env : Env} {id : Nat} {d : String} {o : Op}
    (h : o ∈ channelApply env id d) : o.chan = id := by
  rcases mem_channelApply h with h | h | h
  · subst h; rfl
  · subst h; rfl
  · rcases mem_ensureOnIfDetached h with h | h <;> subst h <;> rfl

theorem chan_of_mem_ensureOnIfDetached {env : Env} {id : Nat} {m : String}
    {o : Op} (h : o ∈ ensureOnIfDetached env id m) : o.chan = id := by
  rcases mem_ensureOnIfDetached h with h | h <;> subst h <;> rfl

/-- `applyMode` only ever touches `lastApplied`: the state it returns is
the input state with `lastApplied := desired` (in the skip branch
`lastApplied` already equals the desired mode). -/
theorem applyModeWith_state (u d : String) (rids : List Nat) (st : CtrlState)
    (env : Env) (haUp : Bool) :
    (applyModeWith u d rids st env haUp).1
      = { st with lastApplied := some (desiredModeOf u d haUp) } := by
  unfold applyModeWith
  dsimp only
  split
  · rename_i hskip
    cases st
    simp_all
  · rfl

theorem min_double_cap (a M : Nat) : min (min a M * 2) M = min (a * 2) M := by
  omega

/-- Backoff trajectory along consecutive unreachable outcomes, started
from a capped power of two. -/
theorem backoffTraj_replicate_false (N : Nat) :
    ∀ j : Nat, backoffTraj (min (MIN_MS * 2 ^ j) MAX_MS) (List.replicate N false)
      = (List.range N).map (fun k => min (MIN_MS * 2 ^ (j + k + 1)) MAX_MS) := by
  induction N with
  | zero => intro j; rfl
  | succ n ih =>
    intro j
    rw [List.replicate_succ, List.range_succ_eq_map]
    show (nextBackoff (min (MIN_MS * 2 ^ j) MAX_MS) false)
        :: backoffTraj (nextBackoff (min (MIN_MS * 2 ^ j) MAX_MS) false)
            (List.replicate n false) = _
    have hstep : nextBackoff (min (MIN_MS * 2 ^ j) MAX_MS) false
        = min (MIN_MS * 2 ^ (j + 1)) MAX_MS := by
      show min (min (MIN_MS * 2 ^ j) MAX_MS * 2) MAX_MS = _
      rw [min_double_cap, pow_succ]
      ring_nf
    rw [hstep, ih (j + 1)]
    simp only [List.map_cons, List.map_map]
    congr 1
    refine List.map_congr_left ?_
    intro k _
    have hj : j + 1 + k + 1 = j + Nat.succ k + 1 := by omega
    simp only [Function.comp_apply, hj]

theorem runOutcomes_append (env : Env) (o : Bool) (j : Nat) :
    ∀ (os : List (Bool × Nat)) (st : CtrlState),
      runOutcomes env st (os ++ [(o, j)])
        = (applyModeAndSchedule env (runOutcomes env st os) o j).1 := by
  intro os
  induction os with
  | nil => intro st; rfl
  | cons p rest ih =>
    intro st
    cases p
    exact ih _

/-- Every operation in an `applyMode` trace is one of the four RPCs,
aimed at one of the configured channels, and an output write is always
`on := true`. -/
theorem mem_applyModeWith {u d : String} {rids : List Nat} {st : CtrlState}
    {env : Env} {haUp : Bool} {o : Op}
    (h : o ∈ (applyModeWith u d rids st env haUp).2) :
    ∃ id ∈ rids, o = Op.getConfig id ∨ o = Op.setConfig id (desiredModeOf u d haUp) ∨
      o ∈ ensureOnIfDetached env id (desiredModeOf u d haUp) := by
  unfold applyModeWith at h
  dsimp only at h
  split at h <;>
    simp only [List.mem_flatten, List.mem_map] at h <;>
    obtain ⟨l, ⟨id, hid, hl⟩, ho⟩ := h <;> subst hl
  · exact ⟨id, hid, Or.inr (Or.inr ho)⟩
  · exact ⟨id, hid, mem_channelApply ho⟩

/-- `ensureOnIfDetached` only looks at the channel's own output reading. -/
theorem ensureOn_congr {env env2 : Env} {id : Nat}
    (h : env.output id = env2.output id) :
    ∀ m, ensureOnIfDetached env id m = ensureOnIfDetached env2 id m := by
  intro m
  unfold ensureOnIfDetached
  rw [h]

/-- `channelApply` only looks at the channel's own callback data. -/
theorem channelApply_congr {env env2 : Env} {id : Nat}
    (h1 : env.inMode id = env2.inMode id) (h2 : env.output id = env2.output id) :
    ∀ desired, channelApply env id desired = channelApply env2 id desired := by
  intro desired
  simp only [channelApply, h1, ensureOn_congr h2]

/-- Per-channel traces that agree away from channel `jd` produce the same
operations for all channels other than `jd`. -/
theorem filter_chan_flatten (f g : Nat → List Op) (jd : Nat)
    (hf : ∀ id o, o ∈ f id → o.chan = id) (hg : ∀ id o, o ∈ g id → o.chan = id)
    (hagree : ∀ id, id ≠ jd → f id = g id) :
    ∀ rids : List Nat,
      ((rids.map f).flatten.filter (fun o => decide (o.chan ≠ jd)))
        = ((rids.map g).flatten.filter (fun o => decide (o.chan ≠ jd))) := by
  intro rids
  induction rids with
  | nil => rfl
  | cons id rest ih =>
    simp only [List.map_cons, List.flatten_cons, List.filter_append]
    rw [ih]
    by_cases hid : id = jd
    · subst hid
      have hfnil : (f id).filter (fun o => decide (o.chan ≠ id)) = [] := by
        rw [List.filter_eq_nil_iff]
        intro a ha
        simp [hf id a ha]
      have hgnil : (g id).filter (fun o => decide (o.chan ≠ id)) = [] := by
        rw [List.filter_eq_nil_iff]
        intro a ha
        simp [hg id a ha]
      rw [hfnil, hgnil]
    · rw [hagree id hid]

/-- The guard of `ensureOnIfDetached` compares against the string literal
`"detached"`; for any other mode the step issues nothing. -/
theorem ensureOn_not_detached {env : Env} {id : Nat} {m : String}
    (h : m ≠ "detached") : ensureOnIfDetached env id m = [] := by
  unfold ensureOnIfDetached
  exact if_pos h

/-- Skip branch of `applyMode`: when `lastApplied` already equals the
desired mode, the trace is exactly the per-channel output-invariant
steps. -/
theorem applyModeWith_skip (u d : String) (rids : List Nat) (st : CtrlState)
    (env : Env) (haUp : Bool)
    (hla : st.lastApplied = some (desiredModeOf u d haUp)) :
    (applyModeWith u d rids st env haUp).2
      = (rids.map (fun id => ensureOnIfDetached env id (desiredModeOf u d haUp))).flatten := by
  unfold applyModeWith
  dsimp only
  rw [if_pos hla]

/-! ## Claim theorems -/

/-- C1: `lastApplied` is `none` until the first apply; after the apply
step for a probe outcome, it equals `some UP_MODE` iff that outcome was
reachable, and from the first apply on it is always `some UP_MODE` or
`some DOWN_MODE`, for every sequence of probe outcomes (with arbitrary
jitters) driving the loop. -/
theorem c1_lastApplied_iff_reachable :
    initState.lastApplied = none ∧
    (∀ env : Env, runOutcomes env initState [] = initState) ∧
    (∀ (env : Env) (os : List (Bool × Nat)) (o : Bool) (j : Nat),
      (runOutcomes env initState (os ++ [(o, j)])).lastApplied
          = some (desiredModeOf UP_MODE DOWN_MODE o) ∧
      ((runOutcomes env initState (os ++ [(o, j)])).lastApplied = some UP_MODE ↔ o = true) ∧
      ((runOutcomes env initState (os ++ [(o, j)])).lastApplied = some UP_MODE ∨
        (runOutcomes env initState (os ++ [(o, j)])).lastApplied = some DOWN_MODE)) := by
  refine ⟨rfl, fun env => rfl, ?_⟩
  intro env os o j
  have h : (runOutcomes env initState (os ++ [(o, j)])).lastApplied
      = some (desiredModeOf UP_MODE DOWN_MODE o) := by
    rw [runOutcomes_append]
    show (scheduleNext (applyMode _ env o).1 o j).1.lastApplied = _
    have hsched : ∀ st : CtrlState, (scheduleNext st o j).1.lastApplied = st.lastApplied :=
      fun st => rfl
    rw [hsched]
    unfold applyMode
    rw [applyModeWith_state]
  cases o
  · exact ⟨h, by rw [h]; decide, by rw [h]; decide⟩
  · exact ⟨h, by rw [h]; decide, by rw [h]; decide⟩

/-- C2: a probe attempt is classified reachable exactly when the
transport callback reports error code 0 and a present, numeric status
code strictly below 500 (status codes are naturals, so the lower bound 0
of the interval [0, 500) is implicit); 302, 401 and 403 are reachable,
while a missing/non-numeric code or a missing response is not. -/
theorem c2_reachable_classification :
    (∀ (res : Option HttpRes) (ec : Int),
        isReachable res ec = true
          ↔ ec = 0 ∧ ∃ r c, res = some r ∧ r.code = some c ∧ c < 500) ∧
    isReachable (some ⟨some 302⟩) 0 = true ∧
    isReachable (some ⟨some 401⟩) 0 = true ∧
    isReachable (some ⟨some 403⟩) 0 = true ∧
    isReachable (some ⟨some 500⟩) 0 = false ∧
    isReachable (some ⟨none⟩) 0 = false ∧
    isReachable none 0 = false := by
  refine ⟨?_, by decide, by decide, by decide, by decide, by decide, by decide⟩
  intro res ec
  rcases res with _ | r
  · simp [isReachable]
  · rcases hc : r.code with _ | c
    · simp [isReachable, hc]
    · simp only [isReachable, hc, Bool.and_eq_true, beq_iff_eq, decide_eq_true_iff]
      constructor
      · rintro ⟨he, hlt⟩
        exact ⟨he, r, c, rfl, hc, hlt⟩
      · rintro ⟨he, r2, c2, hr2, hc2, hlt⟩
        refine ⟨he, ?_⟩
        injection hr2 with hr2
        subst hr2
        rw [hc] at hc2
        injection hc2 with hc2
        subst hc2
        exact hlt

/-- C3: when the first transport attempt fails, `checkHA` retries exactly
once, after the fixed 300 ms delay; if the retry also fails the probe
reports unreachable with exactly 2 transport attempts, and no probe cycle
ever uses more than 2 attempts or schedules more than one retry. -/
theorem c3_retry_exactly_once :
    (∀ out : Nat → Option HttpRes × Int,
        isReachable (out 1).1 (out 1).2 = false →
        isReachable (out 2).1 (out 2).2 = false →
        probeHA out = { reachable := false, attemptsUsed := 2,
                        retryDelays := [RETRY_DELAY_MS] }) ∧
    (∀ out, (probeHA out).attemptsUsed ≤ 2 ∧ (probeHA out).retryDelays.length ≤ 1) ∧
    RETRY_DELAY_MS = 300 := by
  have hstep : ∀ (out : Nat → Option HttpRes × Int) (attempt : Nat),
      checkHA out attempt
        = if isReachable (out attempt).1 (out attempt).2 then
            { reachable := true, attemptsUsed := attempt, retryDelays := [] }
          else if attempt < 2 then
            { reachable := (checkHA out (attempt + 1)).reachable,
              attemptsUsed := (checkHA out (attempt + 1)).attemptsUsed,
              retryDelays := RETRY_DELAY_MS :: (checkHA out (attempt + 1)).retryDelays }
          else
            { reachable := false, attemptsUsed := attempt, retryDelays := [] } := by
    intro out attempt
    rw [checkHA]
    split
    · rfl
    · split
      · rfl
      · rfl
  refine ⟨?_, ?_, rfl⟩
  · intro out h1 h2
    unfold probeHA
    rw [hstep, if_neg (by simp [h1]), if_pos (by norm_num),
      hstep, if_neg (by simp [h2]), if_neg (by norm_num)]
  · intro out
    unfold probeHA
    rw [hstep]
    split
    · exact ⟨by norm_num, by simp⟩
    · rw [if_pos (by norm_num), hstep]
      split
      · exact ⟨le_refl 2, by simp⟩
      · rw [if_neg (by norm_num)]
        exact ⟨le_refl 2, by simp⟩

/-- C3 witness: a transport that always fails (error code 1, no
response) reports unreachable after exactly two attempts and one 300 ms
retry delay. -/
theorem c3_retry_exactly_once_witness :
    probeHA (fun _ => ((none : Option HttpRes), (1 : Int)))
      = { reachable := false, attemptsUsed := 2, retryDelays := [RETRY_DELAY_MS] } :=
  c3_retry_exactly_once.1 (fun _ => ((none : Option HttpRes), (1 : Int)))
    (by decide) (by decide)

/-- C4: `scheduleNext` stores `MIN_MS` on a reachable outcome and the
doubled, capped delay otherwise; the jitter is added only to the armed
wait and never to the stored delay (for any jitter value), so the stored
backoff through a full apply-and-schedule cycle is a deterministic
function of the outcome; the spec's scenario outcome sequence yields the
claimed stored-delay and desired-mode sequences. -/
theorem c4_jitter_and_scenario :
    (∀ (st : CtrlState) (haUp : Bool) (j : Nat),
        (scheduleNext st haUp j).1.backoffMs = nextBackoff st.backoffMs haUp ∧
        (scheduleNext st haUp j).2 = nextBackoff st.backoffMs haUp + j) ∧
    (∀ (env : Env) (st : CtrlState) (o : Bool) (j : Nat),
        (applyModeAndSchedule env st o j).1.backoffMs = nextBackoff st.backoffMs o) ∧
    backoffTraj MIN_MS [true, true, false, false, false, true]
        = [30000, 30000, 60000, 120000, 180000, 30000] ∧
    [true, true, false, false, false, true].map (desiredModeOf UP_MODE DOWN_MODE)
        = [UP_MODE, UP_MODE, DOWN_MODE, DOWN_MODE, DOWN_MODE, UP_MODE] := by
  refine ⟨fun st h j => ⟨rfl, rfl⟩, ?_, by decide, by decide⟩
  intro env st o j
  show nextBackoff (applyMode st env o).1.backoffMs o = _
  unfold applyMode
  rw [applyModeWith_state]

/-- C5: starting from the initial stored delay, N consecutive
unreachable outcomes produce the stored-delay trajectory
`min, min*2, min*4, ...` capped at `MAX_MS`, and a single reachable
outcome resets the stored delay to `MIN_MS` from any value. -/
theorem c5_backoff_growth_and_reset :
    (∀ N : Nat, MIN_MS :: backoffTraj MIN_MS (List.replicate N false)
        = (List.range (N + 1)).map (fun k => min (MIN_MS * 2 ^ k) MAX_MS)) ∧
    (∀ b : Nat, nextBackoff b true = MIN_MS) := by
  refine ⟨?_, fun b => rfl⟩
  intro N
  have hmin : min (MIN_MS * 2 ^ 0) MAX_MS = MIN_MS := by decide
  have h := backoffTraj_replicate_false N 0
  rw [hmin] at h
  rw [h, List.range_succ_eq_map, List.map_cons, hmin, List.map_map]
  congr 1
  refine List.map_congr_left ?_
  intro k _
  have hk : 0 + k + 1 = Nat.succ k := by omega
  simp only [Function.comp_apply, hk]

/-- C6: `applyMode` is idempotent with respect to mode writes: when the
desired mode equals `lastApplied` the trace holds no input-mode read or
write, only the output-invariant step for every configured channel; in
particular a second apply with the same outcome performs zero
`Switch.GetConfig`/`Switch.SetConfig` calls but still runs
`ensureOnIfDetached` for every channel. -/
theorem c6_apply_idempotent :
    (∀ (u d : String) (rids : List Nat) (st : CtrlState) (env : Env) (haUp : Bool),
        st.lastApplied = some (desiredModeOf u d haUp) →
        (applyModeWith u d rids st env haUp).2
            = (rids.map (fun id => ensureOnIfDetached env id (desiredModeOf u d haUp))).flatten) ∧
    (∀ (u d : String) (rids : List Nat) (st : CtrlState) (env env2 : Env) (haUp : Bool),
        (applyModeWith u d rids (applyModeWith u d rids st env haUp).1 env2 haUp).2
            = (rids.map (fun id => ensureOnIfDetached env2 id (desiredModeOf u d haUp))).flatten) ∧
    (∀ (u d : String) (rids : List Nat) (st : CtrlState) (env env2 : Env) (haUp : Bool)
        (id : Nat) (m : String),
        Op.getConfig id
            ∉ (applyModeWith u d rids (applyModeWith u d rids st env haUp).1 env2 haUp).2 ∧
        Op.setConfig id m
            ∉ (applyModeWith u d rids (applyModeWith u d rids st env haUp).1 env2 haUp).2) := by
  have hsecond : ∀ (u d : String) (rids : List Nat) (st : CtrlState) (env env2 : Env)
      (haUp : Bool),
      (applyModeWith u d rids (applyModeWith u d rids st env haUp).1 env2 haUp).2
        = (rids.map (fun id => ensureOnIfDetached env2 id (desiredModeOf u d haUp))).flatten := by
    intro u d rids st env env2 haUp
    refine applyModeWith_skip u d rids _ env2 haUp ?_
    rw [applyModeWith_state]
  refine ⟨fun u d rids st env haUp hla => applyModeWith_skip u d rids st env haUp hla,
    hsecond, ?_⟩
  intro u d rids st env env2 haUp id m
  constructor <;> intro hmem <;> rw [hsecond] at hmem <;>
    simp only [List.mem_flatten, List.mem_map] at hmem <;>
    obtain ⟨l, ⟨i2, hi2, hl⟩, ho⟩ := hmem <;> subst hl <;>
    rcases mem_ensureOnIfDetached ho with h | h <;> exact Op.noConfusion h

/-- C6 witness: a skip-branch apply at a concrete state and environment
issues exactly the output-invariant trace. -/
theorem c6_apply_idempotent_witness :
    (applyModeWith UP_MODE DOWN_MODE RELAY_IDS
        { lastApplied := some UP_MODE, backoffMs := MIN_MS,
          nextTimer := none, wifiTimer := none }
        ⟨fun _ => some DOWN_MODE, fun _ => true, fun _ => some true⟩ true).2
      = (RELAY_IDS.map (fun id =>
          ensureOnIfDetached ⟨fun _ => some DOWN_MODE, fun _ => true, fun _ => some true⟩
            id (desiredModeOf UP_MODE DOWN_MODE true))).flatten :=
  c6_apply_idempotent.1 UP_MODE DOWN_MODE RELAY_IDS _ _ true rfl

/-- C7: in the powered mode `UP_MODE` an output read of `false` yields
exactly one `Switch.Set on:=true` for that channel, an output read of
`true` yields zero output writes, no `applyMode` trace ever holds an
output-off write, and any other desired mode issues no output read or
write at all. -/
theorem c7_output_invariant :
    (∀ (env : Env) (id : Nat), env.output id = some false →
        ensureOnIfDetached env id UP_MODE = [Op.getStatus id, Op.switchSet id true]) ∧
    (∀ (env : Env) (id : Nat), env.output id = some true →
        ensureOnIfDetached env id UP_MODE = [Op.getStatus id]) ∧
    (∀ (u d : String) (rids : List Nat) (st : CtrlState) (env : Env) (haUp : Bool) (id : Nat),
        Op.switchSet id false ∉ (applyModeWith u d rids st env haUp).2) ∧
    (∀ (env : Env) (id : Nat) (m : String), m ≠ UP_MODE →
        ensureOnIfDetached env id m = []) := by
  refine ⟨?_, ?_, ?_, fun env id m h => ensureOn_not_detached h⟩
  · intro env id h
    simp [ensureOnIfDetached, UP_MODE, h]
  · intro env id h
    simp [ensureOnIfDetached, UP_MODE, h]
  · intro u d rids st env haUp id hmem
    obtain ⟨i2, hi2, h⟩ := mem_applyModeWith hmem
    rcases h with h | h | h
    · exact Op.noConfusion h
    · exact Op.noConfusion h
    · rcases mem_ensureOnIfDetached h with h | h
      · exact Op.noConfusion h
      · injection h with h1 h2
        exact Bool.noConfusion h2

/-- C7 witness: the output-invariant cases at a concrete channel and
environment. -/
theorem c7_output_invariant_witness :
    ensureOnIfDetached ⟨fun _ => none, fun _ => true, fun _ => some false⟩ 0 UP_MODE
        = [Op.getStatus 0, Op.switchSet 0 true] ∧
    ensureOnIfDetached ⟨fun _ => none, fun _ => true, fun _ => some true⟩ 0 UP_MODE
        = [Op.getStatus 0] ∧
    ensureOnIfDetached ⟨fun _ => none, fun _ => true, fun _ => some false⟩ 0 DOWN_MODE = [] :=
  ⟨c7_output_invariant.1 _ 0 rfl, c7_output_invariant.2.1 _ 0 rfl,
   c7_output_invariant.2.2.2 _ 0 DOWN_MODE (by decide)⟩

/-- C8: a burst of Wi-Fi connectivity events whose consecutive gaps are
all inside the debounce window produces exactly one debounce fire, at
the last event's time plus the window; the fired callback resets the
stored backoff to `MIN_MS` (the resulting stored delay is
`nextBackoff MIN_MS haUp`, independent of the prior backoff), replaces
any pending next-probe timer with the freshly scheduled one, and runs a
full probe→apply→schedule cycle. -/
theorem c8_debounce_single_recheck :
    (∀ (d t : Nat) (ts : List Nat),
        withinWindow d (t :: ts) = true →
        debounceFireTimes d (t :: ts) = [(t :: ts).getLast (List.cons_ne_nil t ts) + d]) ∧
    (∀ (env : Env) (st : CtrlState) (haUp : Bool) (j : Nat),
        (debounceFireAction env st haUp j).1.backoffMs = nextBackoff MIN_MS haUp ∧
        (debounceFireAction env st haUp j).1.nextTimer
            = some (nextBackoff MIN_MS haUp + j) ∧
        (debounceFireAction env st haUp j).1.lastApplied
            = some (desiredModeOf UP_MODE DOWN_MODE haUp) ∧
        (debounceFireAction env st haUp j).2.1
            = (applyMode { st with backoffMs := MIN_MS, nextTimer := none } env haUp).2) := by
  constructor
  · intro d t ts
    induction ts generalizing t with
    | nil => intro _; rfl
    | cons t2 rest ih =>
      intro hw
      have hw2 : t2 < t + d ∧ withinWindow d (t2 :: rest) = true := by
        simpa [withinWindow] using hw
      show (if t2 < t + d then [] else [t + d]) ++ debounceFireTimes d (t2 :: rest) = _
      have hlast : (t :: t2 :: rest).getLast (List.cons_ne_nil t (t2 :: rest))
          = (t2 :: rest).getLast (List.cons_ne_nil t2 rest) :=
        List.getLast_cons (List.cons_ne_nil t2 rest)
      rw [if_pos hw2.1, List.nil_append, ih t2 hw2.2, hlast]
  · intro env st haUp j
    unfold debounceFireAction applyModeAndSchedule scheduleNext
    dsimp only
    unfold applyMode
    rw [applyModeWith_state]
    exact ⟨rfl, rfl, rfl, rfl⟩

/-- C8 witness: two events 500 ms apart under a 1000 ms window fire
exactly once, 1000 ms after the second event. -/
theorem c8_debounce_single_recheck_witness :
    debounceFireTimes 1000 [0, 500] = [1500] := by
  rw [c8_debounce_single_recheck.1 1000 0 [500] (by decide)]
  rfl

/-- C9 counterexample: the claim says any read or write failure abandons
the channel's step with no further output step that cycle, but when the
`Switch.SetConfig` write fails (`setOk 0 = false`) the write's callback
still runs `ensureOnIfDetached`, so the trace still ends with the output
read and the output-on write. -/
theorem c9_write_failure_counterexample :
    (Env.setOk ⟨fun _ => some DOWN_MODE, fun _ => false, fun _ => some false⟩ 0 = false) ∧
    (applyMode initState ⟨fun _ => some DOWN_MODE, fun _ => false, fun _ => some false⟩ true).2
        = [Op.getConfig 0, Op.setConfig 0 UP_MODE, Op.getStatus 0, Op.switchSet 0 true] :=
  ⟨rfl, rfl⟩

/-- C9 (amended): a failed input-mode read abandons the channel's step
after the read; a failed output read abandons the step before any output
write; a failed mode write is logged but the output-invariant step still
runs for that channel (the per-channel trace never depends on `setOk`);
each channel's trace depends only on that channel's own callback data, so
operations for other channels are unaffected by one channel's failures;
and no failure derails the cycle: `lastApplied` is updated regardless. -/
theorem c9_error_isolation_amended :
    (∀ (env : Env) (id : Nat) (desired : String), env.inMode id = none →
        channelApply env id desired = [Op.getConfig id]) ∧
    (∀ (env : Env) (id : Nat) (m : String), env.output id = none →
        ∀ (i : Nat) (b : Bool), Op.switchSet i b ∉ ensureOnIfDetached env id m) ∧
    (∀ (env env2 : Env) (id : Nat) (desired : String),
        env.inMode id = env2.inMode id → env.output id = env2.output id →
        channelApply env id desired = channelApply env2 id desired) ∧
    (∀ (env env2 : Env) (u d : String) (rids : List Nat) (st : CtrlState)
        (haUp : Bool) (jd : Nat),
        (∀ i, i ≠ jd → env.inMode i = env2.inMode i ∧ env.output i = env2.output i) →
        ((applyModeWith u d rids st env haUp).2.filter (fun o => decide (o.chan ≠ jd)))
            = ((applyModeWith u d rids st env2 haUp).2.filter (fun o => decide (o.chan ≠ jd)))) ∧
    (∀ (u d : String) (rids : List Nat) (st : CtrlState) (env : Env) (haUp : Bool),
        (applyModeWith u d rids st env haUp).1.lastApplied
            = some (desiredModeOf u d haUp)) ∧
    (∀ (env : Env) (id : Nat) (desired curr : String),
        env.inMode id = some curr → curr ≠ desired →
        channelApply env id desired
            = Op.getConfig id :: Op.setConfig id desired :: ensureOnIfDetached env id desired) := by
  refine ⟨?_, ?_, fun env env2 id desired h1 h2 => channelApply_congr h1 h2 desired,
    ?_, ?_, ?_⟩
  · intro env id desired h
    simp [channelApply, h]
  · intro env id m h i b hmem
    rcases mem_ensureOnIfDetached hmem with he | he
    · exact Op.noConfusion he
    · unfold ensureOnIfDetached at hmem
      split at hmem
      · simp at hmem
      · rw [h] at hmem
        rcases List.mem_cons.mp hmem with h2 | h2
        · exact Op.noConfusion h2
        · simp at h2
  · intro env env2 u d rids st haUp jd hagree
    unfold applyModeWith
    dsimp only
    by_cases hla : st.lastApplied = some (desiredModeOf u d haUp)
    · rw [if_pos hla, if_pos hla]
      exact filter_chan_flatten _ _ jd
        (fun id o ho => chan_of_mem_ensureOnIfDetached ho)
        (fun id o ho => chan_of_mem_ensureOnIfDetached ho)
        (fun id hid => ensureOn_congr (hagree id hid).2 _) rids
    · rw [if_neg hla, if_neg hla]
      exact filter_chan_flatten _ _ jd
        (fun id o ho => chan_of_mem_channelApply ho)
        (fun id o ho => chan_of_mem_channelApply ho)
        (fun id hid => channelApply_congr (hagree id hid).1 (hagree id hid).2 _) rids
  · intro u d rids st env haUp
    rw [applyModeWith_state]
  · intro env id desired curr hc hne
    simp only [channelApply, hc]
    rw [if_pos hne]

/-- C9 witness: a failed input-mode read at a concrete channel leaves
only the read in that channel's trace. -/
theorem c9_error_isolation_amended_witness :
    channelApply ⟨fun _ => none, fun _ => true, fun _ => some false⟩ 0 UP_MODE
        = [Op.getConfig 0] :=
  c9_error_isolation_amended.1 _ 0 UP_MODE rfl

/-- C10: `ensureOnIfDetached` issues no output read or write unless the
desired mode is exactly the literal string `"detached"`; consequently,
were `UP_MODE` configured to any other value, an apply for the reachable
state would never touch the output, and were `DOWN_MODE` configured to
`"detached"`, the enforcement would also run in the hub-down state. -/
theorem c10_guard_compares_literal :
    (∀ (env : Env) (id : Nat) (m : String), m ≠ "detached" →
        ensureOnIfDetached env id m = []) ∧
    (∀ (upMode d : String) (rids : List Nat) (st : CtrlState) (env : Env)
        (id : Nat) (b : Bool), upMode ≠ "detached" →
        Op.getStatus id ∉ (applyModeWith upMode d rids st env true).2 ∧
        Op.switchSet id b ∉ (applyModeWith upMode d rids st env true).2) ∧
    (∀ (u : String) (st : CtrlState) (env : Env),
        st.lastApplied = some "detached" → env.output 0 = some false →
        Op.switchSet 0 true ∈ (applyModeWith u "detached" RELAY_IDS st env false).2) := by
  refine ⟨fun env id m h => ensureOn_not_detached h, ?_, ?_⟩
  · intro upMode d rids st env id b hne
    have hnil : ∀ (env2 : Env) (i : Nat),
        ensureOnIfDetached env2 i (desiredModeOf upMode d true) = [] :=
      fun env2 i => ensureOn_not_detached hne
    constructor <;> intro hmem <;>
      obtain ⟨i2, hi2, h⟩ := mem_applyModeWith hmem <;>
      rcases h with h | h | h <;>
      first
        | exact Op.noConfusion h
        | (rw [hnil env i2] at h; simp at h)
  · intro u st env hla hout
    rw [applyModeWith_skip u "detached" RELAY_IDS st env false hla]
    simp [RELAY_IDS, ensureOnIfDetached, hout, desiredModeOf]

/-- C10 witness: with `UP_MODE` hypothetically set to `"flip"` no output
RPC is issued on a reachable apply, while a `DOWN_MODE` of `"detached"`
runs the enforcement in the hub-down state. -/
theorem c10_guard_compares_literal_witness :
    ensureOnIfDetached ⟨fun _ => some "follow", fun _ => true, fun _ => some false⟩ 0 "follow"
        = [] ∧
    Op.getStatus 0 ∉ (applyModeWith "flip" "follow" RELAY_IDS initState
        ⟨fun _ => some "follow", fun _ => true, fun _ => some false⟩ true).2 ∧
    Op.switchSet 0 true ∈ (applyModeWith "flip" "detached" RELAY_IDS
        { lastApplied := some "detached", backoffMs := MIN_MS,
          nextTimer := none, wifiTimer := none }
        ⟨fun _ => some "follow", fun _ => true, fun _ => some false⟩ false).2 :=
  ⟨c10_guard_compares_literal.1 _ 0 _ (by decide),
   (c10_guard_compares_literal.2.1 "flip" "follow" RELAY_IDS initState _ 0 true (by decide)).1,
   c10_guard_compares_literal.2.2 "flip" _ _ rfl rfl⟩

end HaAvailability
